import Mathlib

/-!
Verification of the proxy-switcheroo rule-evaluation engine and its probe
layer, shallowly embedded from `extension/background/rules.js` (RuleEngine)
and `extension/background/probes.js` (ProbeService).  JavaScript objects used
as string-keyed maps are modelled as association lists with JS
assign/spread update semantics; JS 32-bit bitwise arithmetic is modelled on
`Int`/`Nat` with explicit reduction modulo 2^32.
-/

namespace Switcheroo

/-- A JSON-like value appearing in trigger parameters. -/
inductive Jval where
  | str (s : String)
  | num (n : Int)
  | bool (b : Bool)
deriving Repr, DecidableEq

/-- Trigger parameters as a JS object literal: an insertion-ordered list of
key/value pairs, exactly the data `JSON.stringify` walks over. -/
abbrev Trigger := List (String × Jval)

/-- Rendering of one JSON value, as `JSON.stringify` does. -/
def Jval.render : Jval → String
  | .str s => "\"" ++ s ++ "\""
  | .num n => toString n
  | .bool b => if b then "true" else "false"

/-- Models `JSON.stringify(trigger)`: serializes the object's keys in
insertion order. -/
def jsonStringify (t : Trigger) : String :=
  "\x7b" ++ String.intercalate "," (t.map (fun p => "\"" ++ p.1 ++ "\":" ++ Jval.render p.2)) ++ "\x7d"

/-- Models the cache-key computation in `RuleEngine.getProbeResult`:
`const cacheKey = triggerType + "_" + JSON.stringify(trigger)`. -/
def cacheKey (triggerType : String) (trigger : Trigger) : String :=
  triggerType ++ "_" ++ jsonStringify trigger

/-- Models `ProbeResult` (`models.d.ts`); the diagnostic `data` payload and
the wall-clock `timestamp` are not modelled. -/
structure ProbeResult where
  success : Bool
  error : Option String := none
deriving Repr, DecidableEq

/-- Lookup in a JS object / `Map` modelled as an association list. -/
def assocGet {α : Type} (m : List (String × α)) (k : String) : Option α :=
  (m.find? (fun p => p.1 = k)).map (fun p => p.2)

/-- JS property assignment / `Map.set`: update the existing entry in place
(keys are unique in a JS object or `Map`), else append a new entry. -/
def assocSet {α : Type} (m : List (String × α)) (k : String) (v : α) : List (String × α) :=
  match m with
  | [] => [(k, v)]
  | p :: rest => if p.1 = k then (k, v) :: rest else p :: assocSet rest k v

/-- The per-trigger results map `Record<string, ProbeResult>`. -/
abbrev Results := List (String × ProbeResult)

/-- Models the object spread `\x7b...a, ...b\x7d` merging two results maps. -/
def mergeResults (a b : Results) : Results :=
  b.foldl (fun acc p => assocSet acc p.1 p.2) a

/-- Models `RuleAction` (`then: \x7b setActiveProfile \x7d`). -/
structure RuleAction where
  setActiveProfile : String
deriving Repr, DecidableEq

/-- Models `Rule` (`models.d.ts`).  The `when` trigger set is an
insertion-ordered list of entries, as walked by `Object.keys`; an entry's
`none` value models a key explicitly set to `undefined` (skipped by the
`if (!trigger) continue` guard).  The outer `Option` models a malformed rule
whose `when` is null/absent, on which `Object.keys(rule.when)` throws. -/
structure Rule where
  id : String
  name : String
  enabled : Bool
  priority : Int
  stopOnMatch : Bool
  whenTriggers : Option (List (String × Option Trigger))
  thenAction : RuleAction
deriving Repr, DecidableEq

/-- The probe layer as seen from `evaluateRule`: the outcome of
`this.getProbeResult(triggerType, trigger, opts)`, where `Except.error`
models the awaited call throwing. -/
abbrev Probe := String → Trigger → Except String ProbeResult

/-- The message of the TypeError raised by `Object.keys(null)`. -/
def objectKeysNullMsg : String := "Cannot convert undefined or null to object"

/-- One iteration of the per-trigger loop in `RuleEngine.evaluateRule`:
skip undefined triggers, record the probe result (or the caught error as a
synthetic failure) under `<ruleId>_<triggerType>`, and clear the overall
match flag on failure. -/
def triggerStep (probe : Probe) (rid : String) (acc : Bool × Results)
    (e : String × Option Trigger) : Bool × Results :=
  match e.2 with
  | none => acc
  | some trig =>
    let probeKey := rid ++ "_" ++ e.1
    match probe e.1 trig with
    | .ok r => (acc.1 && r.success, assocSet acc.2 probeKey r)
    | .error msg => (false, assocSet acc.2 probeKey { success := false, error := some msg })

/-- Models `RuleEngine.evaluateRule`: a rule with no trigger keys never
matches; otherwise every trigger is probed (no short-circuit) and the rule
matches iff every probed trigger succeeded.  `Except.error` models the
function throwing, which happens when `rule.when` is null. -/
def evaluateRule (probe : Probe) (rule : Rule) : Except String (Bool × Results) :=
  match rule.whenTriggers with
  | none => .error objectKeysNullMsg
  | some entries =>
    if entries.isEmpty then .ok (false, [])
    else .ok (entries.foldl (triggerStep probe rule.id) (true, []))

/-- Whether `evaluateRule` reports the rule as matched (a throw counts as
not matched, mirroring the catch in `evaluateRules`). -/
def ruleMatchedB (probe : Probe) (rule : Rule) : Bool :=
  match evaluateRule probe rule with
  | .ok (m, _) => m
  | .error _ => false

/-- Insert a rule into a priority-ascending list, after every rule of
strictly smaller priority and before the first rule of greater-or-equal
priority. -/
def insertByPriority (r : Rule) : List Rule → List Rule
  | [] => [r]
  | x :: xs => if r.priority ≤ x.priority then r :: x :: xs else x :: insertByPriority r xs

/-- Models `.sort((a, b) => a.priority - b.priority)`: ES2019 `Array.sort`
is stable, which this insertion sort reproduces. -/
def sortByPriority (l : List Rule) : List Rule :=
  l.foldr insertByPriority []

/-- Models `RuleEvaluationResult` (`rules.js`); the diagnostic wall-clock
`evaluationTime` is not modelled. -/
structure RuleEvaluationResult where
  matched : Bool
  rule : Option Rule := none
  profileId : Option String := none
  results : Results := []
deriving Repr, DecidableEq

/-- The `for (const rule of enabledRules)` loop of
`RuleEngine.evaluateRules`: accumulate per-trigger results, return on the
first matching rule, and convert a thrown rule evaluation into a synthetic
`<ruleId>_error` failure entry before continuing. -/
def evalLoop (probe : Probe) : List Rule → Results → RuleEvaluationResult
  | [], acc => { matched := false, results := acc }
  | r :: rest, acc =>
    match evaluateRule probe r with
    | .ok (m, rres) =>
      let acc2 := mergeResults acc rres
      if m then
        { matched := true
          rule := some r
          profileId := some r.thenAction.setActiveProfile
          results := acc2 }
      else evalLoop probe rest acc2
    | .error msg =>
      evalLoop probe rest (assocSet acc (r.id ++ "_error") { success := false, error := some msg })

/-- Models `RuleEngine.evaluateRules`.  The input list carries the rules in
the encounter order of `Object.values(rules)`. -/
def evaluateRules (probe : Probe) (rules : List Rule) : RuleEvaluationResult :=
  let enabledRules := sortByPriority (rules.filter (fun r => r.enabled))
  if enabledRules.isEmpty then { matched := false, results := [] }
  else evalLoop probe enabledRules []

/-- Models `EvaluationOptions` after the merge with `DEFAULT_OPTIONS`. -/
structure EvaluationOptions where
  timeout : Nat
  enableCache : Bool
  cacheTimeout : Nat
deriving Repr, DecidableEq

/-- Models `RuleEngine.DEFAULT_OPTIONS`. -/
def DEFAULT_OPTIONS : EvaluationOptions :=
  { timeout := 30000, enableCache := true, cacheTimeout := 60000 }

/-- A probe cache entry (`\x7b result, expiry \x7d`). -/
structure CacheEntry where
  result : ProbeResult
  expiry : Nat
deriving Repr, DecidableEq

/-- The `probeCache` map. -/
abbrev Cache := List (String × CacheEntry)

/-- The six trigger types dispatched by the `switch` in `getProbeResult`. -/
def knownTriggerTypes : List String :=
  ["reachability", "dnsResolve", "captivePortal", "ipInfo", "timeWindow", "manualFlag"]

/-- Models `RuleEngine.getProbeResult` with the cache state passed
explicitly and `Date.now()` as `now`.  `exec` abstracts the dispatched
`probeService.test*` call; the `default` branch of the switch throws for an
unknown trigger type, modelled as `Except.error`. -/
def getProbeResult (exec : String → Trigger → ProbeResult) (triggerType : String)
    (trigger : Trigger) (opts : EvaluationOptions) (cache : Cache) (now : Nat) :
    Except String (ProbeResult × Cache) :=
  let key := cacheKey triggerType trigger
  let hit : Option ProbeResult :=
    if opts.enableCache then
      match assocGet cache key with
      | some e => if e.expiry > now then some e.result else none
      | none => none
    else none
  match hit with
  | some r => .ok (r, cache)
  | none =>
    if knownTriggerTypes.contains triggerType then
      let result := exec triggerType trigger
      let cache' :=
        if opts.enableCache then
          assocSet cache key { result := result, expiry := now + opts.cacheTimeout }
        else cache
      .ok (result, cache')
    else .error ("Unknown trigger type: " ++ triggerType)

/-- Models `RuleEngine.cleanExpiredCache`: drop every entry whose expiry is
at or before `now`. -/
def cleanExpiredCache (cache : Cache) (now : Nat) : Cache :=
  cache.filter (fun p => !(p.2.expiry ≤ now))

/-- Splitting accumulator: `cur` holds the current segment reversed. -/
def splitOnCharAux (c : Char) : List Char → List Char → List (List Char)
  | [], cur => [cur.reverse]
  | x :: xs, cur =>
    if x = c then cur.reverse :: splitOnCharAux c xs []
    else splitOnCharAux c xs (x :: cur)

/-- Models JavaScript `s.split(sep)` for a one-character separator. -/
def strSplitOn (s : String) (c : Char) : List String :=
  (splitOnCharAux c s.data []).map (fun l => String.mk l)

/-- Models JavaScript `toLowerCase` on the ASCII range. -/
def strToLower (s : String) : String :=
  String.mk (s.data.map Char.toLower)

/-- Accumulated value of a decimal digit run, as `parseInt` computes it. -/
def digitsToNat (ds : List Char) : Nat :=
  ds.foldl (fun a c => a * 10 + (c.toNat - 48)) 0

/-- Models JavaScript `parseInt(s, 10)`: skip leading whitespace, an
optional sign, then the longest leading run of decimal digits; `none`
models the `NaN` result when no digit is found. -/
def parseIntJS (s : String) : Option Int :=
  let cs := s.data.dropWhile (fun c => c = ' ' || c = '\t' || c = '\n' || c = '\r')
  let signed : Int × List Char :=
    match cs with
    | '-' :: r => (-1, r)
    | '+' :: r => (1, r)
    | r => (1, r)
  let ds := signed.2.takeWhile Char.isDigit
  if ds.isEmpty then none else some (signed.1 * Int.ofNat (digitsToNat ds))

/-- Models `ProbeService.isIPv4`: four dot-separated parts, each parsing to
an integer in 0..255 whose canonical decimal rendering equals the part. -/
def isIPv4 (ip : String) : Bool :=
  let parts := strSplitOn ip '.'
  decide (parts.length = 4) && parts.all (fun part =>
    match parseIntJS part with
    | some n => decide (0 ≤ n) && decide (n ≤ 255) && decide (part = toString n)
    | none => false)

/-- A hexadecimal digit, as matched by the `[0-9a-fA-F]` character class. -/
def isHexChar (c : Char) : Bool :=
  c.isDigit || ('a' ≤ c && c ≤ 'f') || ('A' ≤ c && c ≤ 'F')

/-- Models `ProbeService.isIPv6`, whose regex accepts 2 to 8 colon-separated
groups of at most 4 hex digits each. -/
def isIPv6 (ip : String) : Bool :=
  let segs := strSplitOn ip ':'
  decide (2 ≤ segs.length) && decide (segs.length ≤ 8) &&
    segs.all (fun s => decide (s.length ≤ 4) && s.data.all isHexChar)

/-- JavaScript `ToUint32`: reduce modulo 2^32 into 0..2^32-1. -/
def toUint32N (n : Int) : Nat :=
  (n.emod 4294967296).toNat

/-- JavaScript `ToInt32`: reduce modulo 2^32 into -2^31..2^31-1. -/
def toInt32 (n : Int) : Int :=
  let m := n.emod 4294967296
  if m < 2147483648 then m else m - 4294967296

/-- JavaScript 32-bit bitwise AND `a & b`. -/
def jsAnd (a b : Int) : Int :=
  toInt32 (Int.ofNat (Nat.land (toUint32N a) (toUint32N b)))

/-- JavaScript 32-bit left shift `a << b` (shift count is taken modulo
32). -/
def jsShl (a b : Int) : Int :=
  toInt32 (toInt32 a * (2 : Int) ^ (toUint32N b % 32))

/-- Models `ProbeService.ipv4ToNumber`:
`ip.split('.').reduce((acc, part) => (acc << 8) + parseInt(part, 10), 0) >>> 0`.
A part that parses to `NaN` poisons the whole sum, and `NaN >>> 0` is 0. -/
def ipv4ToNumber (ip : String) : Int :=
  let r := (strSplitOn ip '.').foldl
    (fun acc part =>
      match acc, parseIntJS part with
      | some a, some n => some (jsShl a 8 + n)
      | _, _ => (none : Option Int))
    (some 0)
  match r with
  | some v => Int.ofNat (toUint32N v)
  | none => 0

/-- Models `ProbeService.isIPv4InCIDR`: integer masking with
`mask = 0xFFFFFFFF << (32 - prefix)` under JavaScript 32-bit semantics. -/
def isIPv4InCIDR (ip network : String) (p : Int) : Bool :=
  let ipNum := ipv4ToNumber ip
  let networkNum := ipv4ToNumber network
  let mask := jsShl 4294967295 (32 - p)
  decide (jsAnd ipNum mask = jsAnd networkNum mask)

/-- Models `ProbeService.isIPv6InCIDR`: case-insensitive string-prefix
comparison truncated to whole hex nibbles (`substring(0, floor(prefix/4))`;
a negative bound yields the empty prefix). -/
def isIPv6InCIDR (ip network : String) (p : Int) : Bool :=
  let k := if p < 0 then 0 else p.toNat / 4
  List.isPrefixOf (((strToLower network).data).take k) (strToLower ip).data

/-- Models `ProbeService.isIPInCIDR`: split on `/`, fail closed on a wrong
segment count or a `NaN` prefix, then dispatch on address family. -/
def isIPInCIDR (ip cidr : String) : Bool :=
  match strSplitOn cidr '/' with
  | [network, prefixStr] =>
    match parseIntJS prefixStr with
    | none => false
    | some p =>
      if isIPv4 ip && isIPv4 network then isIPv4InCIDR ip network p
      else if isIPv6 ip && isIPv6 network then isIPv6InCIDR ip network p
      else false
  | _ => false

/-- Models `ProbeService.checkIPInCIDRRanges`: some address is inside some
listed range. -/
def checkIPInCIDRRanges (addresses cidrs : List String) : Bool :=
  addresses.any (fun address => cidrs.any (fun cidr => isIPInCIDR address cidr))

/-- Models `DnsResolveTrigger` (`models.d.ts`). -/
structure DnsResolveTrigger where
  hostname : String
  matchesMode : Option String := none
  expectIPCIDR : Option (List String) := none
deriving Repr, DecidableEq

/-- Models `ProbeService.testDnsResolve` with the outcome of
`browser.dns.resolve` passed explicitly: `Except.error` models the awaited
call throwing, `.ok none` a null result or missing address list, and
`.ok (some addresses)` a resolution returning `addresses`. -/
def testDnsResolve (trigger : DnsResolveTrigger)
    (dns : Except String (Option (List String))) : ProbeResult :=
  match dns with
  | .error e => { success := false, error := some e }
  | .ok none => { success := false, error := some "No addresses resolved" }
  | .ok (some addresses) =>
    if addresses.isEmpty then { success := false, error := some "No addresses resolved" }
    else
      let success := true
      let success :=
        match trigger.expectIPCIDR with
        | some l => if l.isEmpty then success else checkIPInCIDRRanges addresses l
        | none => success
      let success :=
        match trigger.expectIPCIDR with
        | some l =>
          if trigger.matchesMode = some "exact" then addresses.any (fun a => l.contains a)
          else success
        | none => success
      { success := success }

/-- Models `IpInfoTrigger` (`models.d.ts`). -/
structure IpInfoTrigger where
  providerUrl : Option String := none
  expectOrg : Option String := none
  expectCountry : Option String := none
deriving Repr, DecidableEq

/-- The `org` and `country` fields of the provider's JSON payload. -/
structure IpInfoData where
  org : Option String := none
  country : Option String := none
deriving Repr, DecidableEq

/-- JavaScript truthiness of an optional string: present and non-empty. -/
def optTruthy : Option String → Bool
  | none => false
  | some s => !s.isEmpty

/-- Whether `sub` occurs as a contiguous run inside the second list. -/
def containsSub (sub : List Char) : List Char → Bool
  | [] => sub.isEmpty
  | c :: rest => List.isPrefixOf sub (c :: rest) || containsSub sub rest

/-- Models `hay.toLowerCase().includes(needle.toLowerCase())`. -/
def ciIncludes (hay needle : String) : Bool :=
  containsSub (strToLower needle).data (strToLower hay).data

/-- Models `ProbeService.testIpInfo` with the fetch outcome passed
explicitly: `Except.error` models a network failure or JSON-parse throw,
and `.ok (rok, data)` a response with `response.ok = rok` and parsed JSON
`data` (a non-OK response throws and is caught, yielding a failure). -/
def testIpInfo (trigger : IpInfoTrigger)
    (fetched : Except String (Bool × IpInfoData)) : ProbeResult :=
  match fetched with
  | .error e => { success := false, error := some e }
  | .ok (rok, data) =>
    if !rok then { success := false, error := some "HTTP error status" }
    else
      let success := true
      let success :=
        if optTruthy trigger.expectOrg && optTruthy data.org then
          success && ciIncludes (data.org.getD "") (trigger.expectOrg.getD "")
        else success
      let success :=
        if optTruthy trigger.expectCountry && optTruthy data.country then
          success && decide (strToLower (data.country.getD "") = strToLower (trigger.expectCountry.getD ""))
        else success
      { success := success }

/-! ### Concrete fixtures used by witnesses and counterexamples -/

/-- A `manualFlag` trigger object `\x7b value: true \x7d`. -/
def mfTrig : Trigger := [("value", Jval.bool true)]

/-- A probe layer where every trigger succeeds. -/
def probeTriv : Probe := fun _ _ => .ok { success := true }

/-- An enabled single-`manualFlag` rule with the given id and priority. -/
def mkManualRule (i : String) (p : Int) (prof : String) : Rule :=
  { id := i, name := i, enabled := true, priority := p, stopOnMatch := false,
    whenTriggers := some [("manualFlag", some mfTrig)],
    thenAction := { setActiveProfile := prof } }

/-- The three trivially-matching rules of the priority-ordering test. -/
def ruleP200 : Rule := mkManualRule "r200" 200 "p200"

/-- See `ruleP200`. -/
def ruleP50 : Rule := mkManualRule "r50" 50 "p50"

/-- See `ruleP200`. -/
def ruleP100 : Rule := mkManualRule "r100" 100 "p100"

/-! ### Sorting lemmas -/

theorem insertByPriority_perm (r : Rule) (l : List Rule) :
    (insertByPriority r l).Perm (r :: l) := by
  induction l with
  | nil => exact List.Perm.refl _
  | cons x xs ih =>
    by_cases h : r.priority ≤ x.priority
    · simp [insertByPriority, h]
    · simp only [insertByPriority, h, if_false]
      exact (List.Perm.cons x ih).trans (List.Perm.swap r x xs)

theorem sortByPriority_perm (l : List Rule) : (sortByPriority l).Perm l := by
  induction l with
  | nil => exact List.Perm.refl _
  | cons x xs ih =>
    show (insertByPriority x (sortByPriority xs)).Perm (x :: xs)
    exact (insertByPriority_perm x _).trans (List.Perm.cons x ih)

theorem insertByPriority_pairwise (r : Rule) (l : List Rule) :
    List.Pairwise (fun a b => a.priority ≤ b.priority) l →
      List.Pairwise (fun a b => a.priority ≤ b.priority) (insertByPriority r l) := by
  induction l with
  | nil => intro _; simp [insertByPriority]
  | cons x xs ih =>
    intro h
    rcases List.pairwise_cons.mp h with ⟨hx, hxs⟩
    by_cases hr : r.priority ≤ x.priority
    · simp only [insertByPriority, hr, if_true]
      refine List.pairwise_cons.mpr ⟨?_, List.pairwise_cons.mpr ⟨hx, hxs⟩⟩
      intro b hb
      rcases List.mem_cons.mp hb with rfl | hb
      · exact hr
      · exact le_trans hr (hx _ hb)
    · simp only [insertByPriority, hr, if_false]
      refine List.pairwise_cons.mpr ⟨?_, ih hxs⟩
      intro b hb
      have hmem : b ∈ r :: xs := (insertByPriority_perm r xs).mem_iff.mp hb
      rcases List.mem_cons.mp hmem with rfl | hmem2
      · exact le_of_lt (lt_of_not_le hr)
      · exact hx _ hmem2

theorem sortByPriority_pairwise (l : List Rule) :
    List.Pairwise (fun a b => a.priority ≤ b.priority) (sortByPriority l) := by
  induction l with
  | nil => simp [sortByPriority]
  | cons x xs ih => exact insertByPriority_pairwise x _ ih

theorem insertByPriority_filter (p : Int) (r : Rule) (l : List Rule) :
    (insertByPriority r l).filter (fun x => decide (x.priority = p)) =
      (r :: l).filter (fun x => decide (x.priority = p)) := by
  induction l with
  | nil => rfl
  | cons x xs ih =>
    by_cases hr : r.priority ≤ x.priority
    · simp only [insertByPriority, hr, if_true]
    · have hx : x.priority < r.priority := lt_of_not_le hr
      simp only [insertByPriority, hr, if_false]
      simp only [List.filter_cons]
      rw [ih]
      simp only [List.filter_cons]
      by_cases hp : r.priority = p
      · have hxp : ¬ (x.priority = p) := by omega
        simp [hp, hxp]
      · by_cases hxp : x.priority = p
        · simp [hp, hxp]
        · simp [hp, hxp]

theorem sortByPriority_filter (p : Int) (l : List Rule) :
    (sortByPriority l).filter (fun x => decide (x.priority = p)) =
      l.filter (fun x => decide (x.priority = p)) := by
  induction l with
  | nil => rfl
  | cons x xs ih =>
    show (insertByPriority x (sortByPriority xs)).filter _ = _
    rw [insertByPriority_filter]
    simp only [List.filter_cons]
    rw [ih]

/-! ### Evaluation-loop characterization -/

theorem evalLoop_spec (probe : Probe) (l : List Rule) (acc : Results) :
    (evalLoop probe l acc).rule = l.find? (ruleMatchedB probe) ∧
    (evalLoop probe l acc).matched = (l.find? (ruleMatchedB probe)).isSome ∧
    (evalLoop probe l acc).profileId =
      (l.find? (ruleMatchedB probe)).map (fun r => r.thenAction.setActiveProfile) := by
  induction l generalizing acc with
  | nil => exact ⟨rfl, rfl, rfl⟩
  | cons r rest ih =>
    cases h : evaluateRule probe r with
    | ok pr =>
      obtain ⟨m, rres⟩ := pr
      have hm : ruleMatchedB probe r = m := by simp [ruleMatchedB, h]
      cases m with
      | true => simp [evalLoop, h, List.find?, hm]
      | false =>
        simp only [evalLoop, h, if_false, List.find?, hm]
        exact ih _
    | error msg =>
      have hm : ruleMatchedB probe r = false := by simp [ruleMatchedB, h]
      simp only [evalLoop, h, List.find?, hm]
      exact ih _

theorem evaluateRules_eq_evalLoop (probe : Probe) (rules : List Rule) :
    evaluateRules probe rules =
      evalLoop probe (sortByPriority (rules.filter (fun r => r.enabled))) [] := by
  unfold evaluateRules
  cases h : (sortByPriority (rules.filter (fun r => r.enabled))).isEmpty
  · simp [h]
  · have : sortByPriority (rules.filter (fun r => r.enabled)) = [] := List.isEmpty_iff.mp h
    simp [h, this, evalLoop]

/-- C1.  `evaluateRules` considers exactly the enabled rules, visits them in
ascending priority with ties in encounter order (stable sort), and returns
the first rule in that order reported as matched, with
`profileId = rule.then.setActiveProfile`; on the three trivially-matching
rules of priorities 200, 50, 100 it returns the priority-50 rule. -/
theorem c1_evaluateRules_priority_first_match (probe : Probe) (rules : List Rule) :
    (sortByPriority (rules.filter (fun r => r.enabled))).Perm
      (rules.filter (fun r => r.enabled)) ∧
    List.Pairwise (fun a b => a.priority ≤ b.priority)
      (sortByPriority (rules.filter (fun r => r.enabled))) ∧
    (∀ p : Int, (sortByPriority (rules.filter (fun r => r.enabled))).filter
        (fun r => decide (r.priority = p)) =
      (rules.filter (fun r => r.enabled)).filter (fun r => decide (r.priority = p))) ∧
    (evaluateRules probe rules).rule =
      (sortByPriority (rules.filter (fun r => r.enabled))).find? (ruleMatchedB probe) ∧
    (evaluateRules probe rules).matched =
      ((sortByPriority (rules.filter (fun r => r.enabled))).find? (ruleMatchedB probe)).isSome ∧
    (evaluateRules probe rules).profileId =
      ((sortByPriority (rules.filter (fun r => r.enabled))).find? (ruleMatchedB probe)).map
        (fun r => r.thenAction.setActiveProfile) ∧
    ((evaluateRules probeTriv [ruleP200, ruleP50, ruleP100]).matched = true ∧
      (evaluateRules probeTriv [ruleP200, ruleP50, ruleP100]).rule = some ruleP50 ∧
      (evaluateRules probeTriv [ruleP200, ruleP50, ruleP100]).profileId = some "p50") := by
  obtain ⟨h1, h2, h3⟩ := evalLoop_spec probe (sortByPriority (rules.filter (fun r => r.enabled))) []
  rw [evaluateRules_eq_evalLoop]
  exact ⟨sortByPriority_perm _, sortByPriority_pairwise _, fun p => sortByPriority_filter p _,
    h1, h2, h3, by decide, by decide, by decide⟩

/-! ### Association-list lemmas -/

theorem assocGet_assocSet {α : Type} (m : List (String × α)) (k k' : String) (v : α) :
    assocGet (assocSet m k v) k' = if k' = k then some v else assocGet m k' := by
  induction m with
  | nil =>
    by_cases h : k' = k
    · simp [assocGet, assocSet, List.find?, h]
    · have hsym : ¬ (k = k') := fun hh => h hh.symm
      simp [assocGet, assocSet, List.find?, h, hsym]
  | cons p rest ih =>
    by_cases hp : p.1 = k
    · by_cases h : k' = k
      · simp [assocGet, assocSet, hp, h, List.find?]
      · have hsym : ¬ (k = k') := fun hh => h hh.symm
        have hpk : ¬ (p.1 = k') := by rw [hp]; exact hsym
        simp [assocGet, assocSet, hp, h, hsym, hpk, List.find?]
    · by_cases hpk : p.1 = k'
      · have h : ¬ (k' = k) := by rw [← hpk]; exact fun hh => hp hh
        simp [assocGet, assocSet, hp, h, hpk, List.find?]
      · simp only [assocSet, hp, if_false]
        simp only [assocGet, List.find?, hpk, decide_eq_true_eq, if_false]
        simpa [assocGet] using ih

theorem assocGet_assocSet_isSome {α : Type} (m : List (String × α)) (k k' : String) (v : α)
    (h : (assocGet m k').isSome = true) :
    (assocGet (assocSet m k v) k').isSome = true := by
  rw [assocGet_assocSet]
  by_cases hk : k' = k <;> simp [hk, h]

/-! ### Per-trigger loop lemmas -/

/-- Whether the probe call for one trigger came back with `success: true`
(a throw counts as failure). -/
def probeSuccessB (probe : Probe) (k : String) (t : Trigger) : Bool :=
  match probe k t with
  | .ok r => r.success
  | .error _ => false

/-- Whether one `when` entry passes: skipped undefined triggers pass
vacuously, present triggers pass iff their probe succeeded. -/
def triggerOkB (probe : Probe) (e : String × Option Trigger) : Bool :=
  match e.2 with
  | none => true
  | some t => probeSuccessB probe e.1 t

theorem triggerStep_fst (probe : Probe) (rid : String) (acc : Bool × Results)
    (e : String × Option Trigger) :
    (triggerStep probe rid acc e).1 = (acc.1 && triggerOkB probe e) := by
  obtain ⟨k, t⟩ := e
  cases t with
  | none => simp [triggerStep, triggerOkB]
  | some trig =>
    cases h : probe k trig with
    | ok r => simp [triggerStep, triggerOkB, probeSuccessB, h]
    | error msg => simp [triggerStep, triggerOkB, probeSuccessB, h]

theorem foldl_triggerStep_fst (probe : Probe) (rid : String)
    (entries : List (String × Option Trigger)) :
    ∀ acc : Bool × Results,
      (entries.foldl (triggerStep probe rid) acc).1 = (acc.1 && entries.all (triggerOkB probe)) := by
  induction entries with
  | nil => intro acc; simp
  | cons e rest ih =>
    intro acc
    rw [List.foldl_cons, ih, triggerStep_fst, List.all_cons, Bool.and_assoc]

theorem foldl_triggerStep_keeps_key (probe : Probe) (rid : String)
    (entries : List (String × Option Trigger)) :
    ∀ (acc : Bool × Results) (key : String), (assocGet acc.2 key).isSome = true →
      (assocGet (entries.foldl (triggerStep probe rid) acc).2 key).isSome = true := by
  induction entries with
  | nil => intro acc key h; exact h
  | cons e rest ih =>
    intro acc key h
    rw [List.foldl_cons]
    refine ih _ key ?_
    obtain ⟨k, t⟩ := e
    cases t with
    | none => exact h
    | some trig =>
      cases hp : probe k trig with
      | ok r => simpa [triggerStep, hp] using assocGet_assocSet_isSome _ _ _ _ h
      | error msg => simpa [triggerStep, hp] using assocGet_assocSet_isSome _ _ _ _ h

theorem foldl_triggerStep_has_key (probe : Probe) (rid : String)
    (entries : List (String × Option Trigger)) :
    ∀ (acc : Bool × Results) (e : String × Option Trigger) (t : Trigger),
      e ∈ entries → e.2 = some t →
      (assocGet (entries.foldl (triggerStep probe rid) acc).2 (rid ++ "_" ++ e.1)).isSome = true := by
  induction entries with
  | nil => intro _ _ _ hmem _; exact absurd hmem (List.not_mem_nil _)
  | cons hd rest ih =>
    intro acc e t hmem ht
    rcases List.mem_cons.mp hmem with rfl | hmem2
    · rw [List.foldl_cons]
      refine foldl_triggerStep_keeps_key probe rid rest _ _ ?_
      obtain ⟨k, t'⟩ := e
      cases ht
      cases hp : probe k t with
      | ok r => simp [triggerStep, hp, assocGet_assocSet]
      | error msg => simp [triggerStep, hp, assocGet_assocSet]
    · rw [List.foldl_cons]
      exact ih _ e t hmem2 ht

/-- C2.  `evaluateRule` never throws when the `when` set is present: it
probes every present trigger (recording an entry keyed
`<ruleId>_<triggerType>` for each, even after an earlier trigger failed)
and reports the rule matched iff the `when` set is non-empty and every
present trigger's probe returned `success: true`. -/
theorem c2_evaluateRule_all_triggers (probe : Probe) (rule : Rule)
    (entries : List (String × Option Trigger)) (hw : rule.whenTriggers = some entries) :
    ∃ m res, evaluateRule probe rule = .ok (m, res) ∧
      (m = true ↔ (entries ≠ [] ∧
        ∀ e ∈ entries, ∀ t, e.2 = some t → probeSuccessB probe e.1 t = true)) ∧
      (∀ e ∈ entries, ∀ t, e.2 = some t →
        (assocGet res (rule.id ++ "_" ++ e.1)).isSome = true) := by
  cases hempty : entries.isEmpty
  · have hne : entries ≠ [] := by
      intro h
      rw [h] at hempty
      exact absurd hempty (by simp)
    refine ⟨(entries.foldl (triggerStep probe rule.id) (true, [])).1,
      (entries.foldl (triggerStep probe rule.id) (true, [])).2, ?_, ?_, ?_⟩
    · simp [evaluateRule, hw, hempty]
    · rw [foldl_triggerStep_fst]
      simp only [Bool.true_and, List.all_eq_true, hne, ne_eq, not_false_iff, true_and]
      constructor
      · intro hall e hmem t ht
        have := hall e hmem
        simpa [triggerOkB, ht] using this
      · intro hall e hmem
        obtain ⟨k, t⟩ := e
        cases t with
        | none => simp [triggerOkB]
        | some trig => simpa [triggerOkB] using hall (k, some trig) hmem trig rfl
    · intro e hmem t ht
      exact foldl_triggerStep_has_key probe rule.id entries _ e t hmem ht
  · have hnil : entries = [] := List.isEmpty_iff.mp hempty
    subst hnil
    refine ⟨false, [], by simp [evaluateRule, hw], by simp, by simp⟩

/-- Witness for C2 at a concrete rule with two present triggers (one
failing, one succeeding) and one undefined entry. -/
def probeOneFails : Probe := fun k _ =>
  if k = "reachability" then .ok { success := false, error := some "HTTP 500" }
  else .ok { success := true }

/-- A rule whose `when` set holds a failing trigger, a succeeding trigger
and an explicitly undefined entry. -/
def ruleTwoTriggers : Rule :=
  { id := "rt", name := "rt", enabled := true, priority := 1, stopOnMatch := false,
    whenTriggers := some [("reachability", some [("url", Jval.str "u")]),
      ("manualFlag", some mfTrig), ("ipInfo", none)],
    thenAction := { setActiveProfile := "pt" } }

theorem c2_evaluateRule_all_triggers_witness :
    ∃ m res, evaluateRule probeOneFails ruleTwoTriggers = .ok (m, res) ∧
      (m = true ↔ (([("reachability", some [("url", Jval.str "u")]),
          ("manualFlag", some mfTrig), ("ipInfo", none)] :
            List (String × Option Trigger)) ≠ [] ∧
        ∀ e ∈ ([("reachability", some [("url", Jval.str "u")]),
          ("manualFlag", some mfTrig), ("ipInfo", none)] :
            List (String × Option Trigger)),
          ∀ t, e.2 = some t → probeSuccessB probeOneFails e.1 t = true)) ∧
      (∀ e ∈ ([("reachability", some [("url", Jval.str "u")]),
          ("manualFlag", some mfTrig), ("ipInfo", none)] :
            List (String × Option Trigger)),
        ∀ t, e.2 = some t →
          (assocGet res (ruleTwoTriggers.id ++ "_" ++ e.1)).isSome = true) :=
  c2_evaluateRule_all_triggers probeOneFails ruleTwoTriggers _ rfl

/-! ### C3: fault isolation -/

/-- A probe layer where `manualFlag` succeeds and every other trigger type
throws. -/
def probeBoom : Probe := fun k _ =>
  if k = "manualFlag" then .ok { success := true } else .error "boom"

/-- An enabled priority-2 rule whose single `manualFlag` trigger matches. -/
def ruleMatchB : Rule :=
  { id := "B", name := "B", enabled := true, priority := 2, stopOnMatch := false,
    whenTriggers := some [("manualFlag", some mfTrig)],
    thenAction := { setActiveProfile := "pb" } }

/-- An enabled priority-1 rule with a single `dnsResolve` trigger carrying
the parameters `t`. -/
def ruleThrowTrig (t : Trigger) : Rule :=
  { id := "A", name := "A", enabled := true, priority := 1, stopOnMatch := false,
    whenTriggers := some [("dnsResolve", some t)],
    thenAction := { setActiveProfile := "pa" } }

/-- An enabled priority-1 rule with a missing (null) `when` set, on which
`evaluateRule` itself throws. -/
def ruleNullWhen : Rule :=
  { id := "A", name := "A", enabled := true, priority := 1, stopOnMatch := false,
    whenTriggers := none,
    thenAction := { setActiveProfile := "pa" } }

/-- C3 counterexample.  When rule `A`'s trigger probe throws, the failure
is recorded under the per-trigger key `A_dnsResolve` — no synthetic
`A_error` entry is created, contrary to the claim — while evaluation still
continues and the lower-priority rule `B` matches. -/
theorem c3_counterexample_trigger_throw_key :
    assocGet (evaluateRules probeBoom
        [ruleThrowTrig [("hostname", Jval.str "h")], ruleMatchB]).results "A_error" = none ∧
    assocGet (evaluateRules probeBoom
        [ruleThrowTrig [("hostname", Jval.str "h")], ruleMatchB]).results "A_dnsResolve" =
      some { success := false, error := some "boom" } ∧
    (evaluateRules probeBoom
        [ruleThrowTrig [("hostname", Jval.str "h")], ruleMatchB]).matched = true ∧
    (evaluateRules probeBoom
        [ruleThrowTrig [("hostname", Jval.str "h")], ruleMatchB]).rule = some ruleMatchB := by
  refine ⟨?_, ?_, ?_, ?_⟩ <;> decide

/-- C3 (amended).  An exception escaping `evaluateRule` itself — here a
rule whose `when` set is null — is recorded as a synthetic
`<ruleId>_error` failure entry and evaluation continues, so a subsequent
lower-priority rule still matches; an exception thrown by a trigger probe
is caught inside `evaluateRule` and recorded under
`<ruleId>_<triggerType>` with `success: false` (and no `<ruleId>_error`
entry), likewise without preventing a later rule from matching. -/
theorem c3_amended_rule_error_isolation (probe : Probe) (t : Trigger) (msg : String)
    (hb : probe "manualFlag" mfTrig = .ok { success := true, error := none }) :
    ((evaluateRules probe [ruleNullWhen, ruleMatchB]).matched = true ∧
      (evaluateRules probe [ruleNullWhen, ruleMatchB]).rule = some ruleMatchB ∧
      (evaluateRules probe [ruleNullWhen, ruleMatchB]).profileId = some "pb" ∧
      assocGet (evaluateRules probe [ruleNullWhen, ruleMatchB]).results "A_error" =
        some { success := false, error := some objectKeysNullMsg }) ∧
    (probe "dnsResolve" t = .error msg →
      (evaluateRules probe [ruleThrowTrig t, ruleMatchB]).matched = true ∧
      (evaluateRules probe [ruleThrowTrig t, ruleMatchB]).rule = some ruleMatchB ∧
      (evaluateRules probe [ruleThrowTrig t, ruleMatchB]).profileId = some "pb" ∧
      assocGet (evaluateRules probe [ruleThrowTrig t, ruleMatchB]).results "A_dnsResolve" =
        some { success := false, error := some msg } ∧
      assocGet (evaluateRules probe [ruleThrowTrig t, ruleMatchB]).results "A_error" = none) := by
  have hb' : probe "manualFlag" [("value", Jval.bool true)] = .ok { success := true, error := none } := by
    simpa [mfTrig] using hb
  constructor
  · simp [evaluateRules, evaluateRule, evalLoop, sortByPriority, insertByPriority, ruleMatchB,
      ruleNullWhen, triggerStep, mergeResults, assocSet, assocGet, List.find?, mfTrig, hb',
      objectKeysNullMsg]
  · intro hp
    simp [evaluateRules, evaluateRule, evalLoop, sortByPriority, insertByPriority, ruleMatchB,
      ruleThrowTrig, triggerStep, mergeResults, assocSet, assocGet, List.find?, mfTrig, hb', hp]

/-- Witness for the amended C3 at the concrete throwing probe layer. -/
theorem c3_amended_rule_error_isolation_witness :
    ((evaluateRules probeBoom [ruleNullWhen, ruleMatchB]).matched = true ∧
      (evaluateRules probeBoom [ruleNullWhen, ruleMatchB]).rule = some ruleMatchB ∧
      (evaluateRules probeBoom [ruleNullWhen, ruleMatchB]).profileId = some "pb" ∧
      assocGet (evaluateRules probeBoom [ruleNullWhen, ruleMatchB]).results "A_error" =
        some { success := false, error := some objectKeysNullMsg }) ∧
    ((evaluateRules probeBoom [ruleThrowTrig [("hostname", Jval.str "x")], ruleMatchB]).matched = true ∧
      (evaluateRules probeBoom [ruleThrowTrig [("hostname", Jval.str "x")], ruleMatchB]).rule = some ruleMatchB ∧
      (evaluateRules probeBoom [ruleThrowTrig [("hostname", Jval.str "x")], ruleMatchB]).profileId = some "pb" ∧
      assocGet (evaluateRules probeBoom
          [ruleThrowTrig [("hostname", Jval.str "x")], ruleMatchB]).results "A_dnsResolve" =
        some { success := false, error := some "boom" } ∧
      assocGet (evaluateRules probeBoom
          [ruleThrowTrig [("hostname", Jval.str "x")], ruleMatchB]).results "A_error" = none) :=
  ⟨(c3_amended_rule_error_isolation probeBoom [("hostname", Jval.str "x")] "boom" rfl).1,
    (c3_amended_rule_error_isolation probeBoom [("hostname", Jval.str "x")] "boom" rfl).2 rfl⟩

/-! ### C9: stopOnMatch is inert -/

/-- Overwrite a rule's `stopOnMatch` flag according to `g`, leaving every
other field unchanged. -/
def setStop (g : Rule → Bool) (r : Rule) : Rule :=
  { r with stopOnMatch := g r }

theorem evaluateRule_setStop (probe : Probe) (g : Rule → Bool) (r : Rule) :
    evaluateRule probe (setStop g r) = evaluateRule probe r := rfl

theorem filter_enabled_setStop (g : Rule → Bool) (rules : List Rule) :
    (rules.map (setStop g)).filter (fun r => r.enabled) =
      (rules.filter (fun r => r.enabled)).map (setStop g) := by
  induction rules with
  | nil => rfl
  | cons r rest ih =>
    cases h : r.enabled
    · simpa [List.filter_cons, setStop, h] using ih
    · simpa [List.filter_cons, setStop, h] using ih

theorem insertByPriority_setStop (g : Rule → Bool) (r : Rule) (l : List Rule) :
    insertByPriority (setStop g r) (l.map (setStop g)) = (insertByPriority r l).map (setStop g) := by
  induction l with
  | nil => rfl
  | cons x xs ih =>
    by_cases h : r.priority ≤ x.priority
    · simp [insertByPriority, setStop, h]
    · simp only [List.map_cons, insertByPriority, setStop, h, if_false]
      rw [← ih]
      rfl

theorem sortByPriority_setStop (g : Rule → Bool) (l : List Rule) :
    sortByPriority (l.map (setStop g)) = (sortByPriority l).map (setStop g) := by
  induction l with
  | nil => rfl
  | cons x xs ih =>
    show insertByPriority (setStop g x) (sortByPriority (xs.map (setStop g))) = _
    rw [ih, insertByPriority_setStop]
    rfl

theorem evalLoop_setStop (probe : Probe) (g : Rule → Bool) (l : List Rule) :
    ∀ acc : Results,
      evalLoop probe (l.map (setStop g)) acc =
        { evalLoop probe l acc with rule := (evalLoop probe l acc).rule.map (setStop g) } := by
  induction l with
  | nil => intro acc; rfl
  | cons r rest ih =>
    intro acc
    cases h : evaluateRule probe r with
    | ok pr =>
      obtain ⟨m, rres⟩ := pr
      have h' : evaluateRule probe (setStop g r) = .ok (m, rres) := by
        rw [evaluateRule_setStop, h]
      cases m with
      | true =>
        simp only [List.map_cons, evalLoop, h, h', if_true]
        rfl
      | false =>
        simp only [List.map_cons, evalLoop, h, h', if_false]
        exact ih _
    | error msg =>
      have h' : evaluateRule probe (setStop g r) = .error msg := by
        rw [evaluateRule_setStop, h]
      simp only [List.map_cons, evalLoop, h, h']
      show evalLoop probe (rest.map (setStop g))
          (assocSet acc ((setStop g r).id ++ "_error") { success := false, error := some msg }) = _
      have hid : (setStop g r).id = r.id := rfl
      rw [hid]
      exact ih _

/-- C9.  Flipping any rules' `stopOnMatch` flags changes nothing observable
about `evaluateRules`: the matched flag, the chosen rule id, the chosen
profile id and the keys of the per-trigger results map are identical —
`stopOnMatch` is only read for a debug log message. -/
theorem c9_stopOnMatch_no_effect (probe : Probe) (rules : List Rule) (g : Rule → Bool) :
    (evaluateRules probe (rules.map (setStop g))).matched =
      (evaluateRules probe rules).matched ∧
    (evaluateRules probe (rules.map (setStop g))).rule.map (fun r => r.id) =
      (evaluateRules probe rules).rule.map (fun r => r.id) ∧
    (evaluateRules probe (rules.map (setStop g))).profileId =
      (evaluateRules probe rules).profileId ∧
    (evaluateRules probe (rules.map (setStop g))).results.map Prod.fst =
      (evaluateRules probe rules).results.map Prod.fst := by
  rw [evaluateRules_eq_evalLoop, evaluateRules_eq_evalLoop, filter_enabled_setStop,
    sortByPriority_setStop, evalLoop_setStop]
  refine ⟨rfl, ?_, rfl, rfl⟩
  cases (evalLoop probe (sortByPriority (rules.filter (fun r => r.enabled))) []).rule with
  | none => rfl
  | some r => rfl

/-! ### C4 and C10: probe result caching -/

/-- C4.  With caching enabled, a cache entry whose expiry is strictly in
the future is returned as-is without invoking the probe executor (the
outcome is independent of `exec`); on a missing or expired entry the probe
is executed, stored with `expiry = now + cacheTimeout`, and returned; the
default `cacheTimeout` is 60000 ms. -/
theorem c4_getProbeResult_cache_lookup (exec : String → Trigger → ProbeResult) (tt : String)
    (trig : Trigger) (opts : EvaluationOptions) (cache : Cache) (now : Nat) :
    (∀ e : CacheEntry, opts.enableCache = true →
      assocGet cache (cacheKey tt trig) = some e → e.expiry > now →
      getProbeResult exec tt trig opts cache now = .ok (e.result, cache) ∧
      (∀ exec' : String → Trigger → ProbeResult,
        getProbeResult exec' tt trig opts cache now =
          getProbeResult exec tt trig opts cache now)) ∧
    (opts.enableCache = true →
      (assocGet cache (cacheKey tt trig) = none ∨
        ∃ e : CacheEntry, assocGet cache (cacheKey tt trig) = some e ∧ e.expiry ≤ now) →
      knownTriggerTypes.contains tt = true →
      getProbeResult exec tt trig opts cache now =
        .ok (exec tt trig, assocSet cache (cacheKey tt trig)
          { result := exec tt trig, expiry := now + opts.cacheTimeout })) ∧
    DEFAULT_OPTIONS.cacheTimeout = 60000 := by
  refine ⟨?_, ?_, rfl⟩
  · intro e hen hget hexp
    refine ⟨?_, ?_⟩
    · simp [getProbeResult, hen, hget, hexp]
    · intro exec'
      simp [getProbeResult, hen, hget, hexp]
  · intro hen hmiss hknown
    simp only [List.contains_eq_any_beq, List.any_eq_true, beq_iff_eq] at hknown
    obtain ⟨tt', htt', rfl⟩ := hknown
    rcases hmiss with hnone | ⟨e, hget, hexp⟩
    · simp [getProbeResult, hen, hnone, htt']
    · have hlt : ¬ (e.expiry > now) := not_lt.mpr hexp
      simp [getProbeResult, hen, hget, htt', hlt]

/-- A probe executor whose every result is a failure. -/
def execFail : String → Trigger → ProbeResult := fun _ _ => { success := false, error := some "fresh" }

/-- A probe executor whose every result is a success. -/
def execTrue : String → Trigger → ProbeResult := fun _ _ => { success := true }

/-- A one-entry cache holding a successful `manualFlag` result expiring at
time 100. -/
def cacheW : Cache :=
  [(cacheKey "manualFlag" mfTrig, { result := { success := true }, expiry := 100 })]

/-- Witness for C4: a hit at time 50 (returned unchanged, executor
irrelevant), an expired entry at time 100 (re-executed and re-stored), and
the 60 s default. -/
theorem c4_getProbeResult_cache_lookup_witness :
    getProbeResult execFail "manualFlag" mfTrig DEFAULT_OPTIONS cacheW 50 =
      .ok ({ success := true }, cacheW) ∧
    getProbeResult execTrue "manualFlag" mfTrig DEFAULT_OPTIONS cacheW 50 =
      getProbeResult execFail "manualFlag" mfTrig DEFAULT_OPTIONS cacheW 50 ∧
    getProbeResult execFail "manualFlag" mfTrig DEFAULT_OPTIONS cacheW 100 =
      .ok (execFail "manualFlag" mfTrig, assocSet cacheW (cacheKey "manualFlag" mfTrig)
        { result := execFail "manualFlag" mfTrig, expiry := 100 + DEFAULT_OPTIONS.cacheTimeout }) ∧
    DEFAULT_OPTIONS.cacheTimeout = 60000 :=
  ⟨((c4_getProbeResult_cache_lookup execFail "manualFlag" mfTrig DEFAULT_OPTIONS cacheW 50).1
      { result := { success := true }, expiry := 100 } rfl (by decide) (by decide)).1,
    ((c4_getProbeResult_cache_lookup execFail "manualFlag" mfTrig DEFAULT_OPTIONS cacheW 50).1
      { result := { success := true }, expiry := 100 } rfl (by decide) (by decide)).2 execTrue,
    (c4_getProbeResult_cache_lookup execFail "manualFlag" mfTrig DEFAULT_OPTIONS cacheW 100).2.1
      rfl (Or.inr ⟨{ result := { success := true }, expiry := 100 }, by decide, by decide⟩)
      (by decide),
    (c4_getProbeResult_cache_lookup execFail "manualFlag" mfTrig DEFAULT_OPTIONS cacheW 100).2.2⟩

/-- C10.  With caching enabled, a freshly-executed result is stored with
expiry `now + cacheTimeout` even when its `success` is `false`, and until
that expiry the failed result is served from the cache without re-probing
(any later executor is ignored). -/
theorem c10_failed_result_cached (exec : String → Trigger → ProbeResult) (tt : String)
    (trig : Trigger) (opts : EvaluationOptions) (cache : Cache) (now : Nat)
    (hen : opts.enableCache = true)
    (hnone : assocGet cache (cacheKey tt trig) = none)
    (hknown : knownTriggerTypes.contains tt = true)
    (hfail : (exec tt trig).success = false) :
    getProbeResult exec tt trig opts cache now =
      .ok (exec tt trig, assocSet cache (cacheKey tt trig)
        { result := exec tt trig, expiry := now + opts.cacheTimeout }) ∧
    (∀ (exec' : String → Trigger → ProbeResult) (now' : Nat),
      now' < now + opts.cacheTimeout →
      getProbeResult exec' tt trig opts
        (assocSet cache (cacheKey tt trig) { result := exec tt trig, expiry := now + opts.cacheTimeout })
        now' =
        .ok (exec tt trig,
          assocSet cache (cacheKey tt trig) { result := exec tt trig, expiry := now + opts.cacheTimeout })) := by
  have hmem : tt ∈ knownTriggerTypes := by
    simpa using hknown
  constructor
  · simp [getProbeResult, hen, hnone, hmem]
  · intro exec' now' hlt
    have hget : assocGet
        (assocSet cache (cacheKey tt trig) { result := exec tt trig, expiry := now + opts.cacheTimeout })
        (cacheKey tt trig) =
        some { result := exec tt trig, expiry := now + opts.cacheTimeout } := by
      rw [assocGet_assocSet]
      simp
    simp [getProbeResult, hen, hget, hlt]

/-- Witness for C10: a failing `dnsResolve` probe at time 0 is stored and
then served unchanged at time 59999 even to an all-succeeding executor. -/
theorem c10_failed_result_cached_witness :
    getProbeResult execFail "dnsResolve" mfTrig DEFAULT_OPTIONS [] 0 =
      .ok (execFail "dnsResolve" mfTrig, assocSet [] (cacheKey "dnsResolve" mfTrig)
        { result := execFail "dnsResolve" mfTrig, expiry := 0 + DEFAULT_OPTIONS.cacheTimeout }) ∧
    getProbeResult execTrue "dnsResolve" mfTrig DEFAULT_OPTIONS
        (assocSet [] (cacheKey "dnsResolve" mfTrig)
          { result := execFail "dnsResolve" mfTrig, expiry := 0 + DEFAULT_OPTIONS.cacheTimeout })
        59999 =
      .ok (execFail "dnsResolve" mfTrig,
        assocSet [] (cacheKey "dnsResolve" mfTrig)
          { result := execFail "dnsResolve" mfTrig, expiry := 0 + DEFAULT_OPTIONS.cacheTimeout }) :=
  ⟨(c10_failed_result_cached execFail "dnsResolve" mfTrig DEFAULT_OPTIONS [] 0
      rfl rfl (by decide) rfl).1,
    (c10_failed_result_cached execFail "dnsResolve" mfTrig DEFAULT_OPTIONS [] 0
      rfl rfl (by decide) rfl).2 execTrue 59999 (by decide)⟩

/-! ### C5: cache key and trigger-parameter serialization -/

theorem string_append_left_inj (a x y : String) : a ++ x = a ++ y ↔ x = y := by
  constructor
  · intro h
    have hd : (a ++ x).data = (a ++ y).data := congrArg String.data h
    rw [String.data_append, String.data_append] at hd
    exact String.ext (List.append_cancel_left hd)
  · intro h
    rw [h]

/-- C5 counterexample.  Two structurally-equal trigger objects (the same
key/value bindings, a permutation of one another) whose keys were inserted
in different orders produce different cache keys, so key order does cause a
cache miss. -/
theorem c5_counterexample_key_order :
    List.Perm [("value", Jval.bool true), ("url", Jval.str "x")]
      [("url", Jval.str "x"), ("value", Jval.bool true)] ∧
    cacheKey "manualFlag" [("value", Jval.bool true), ("url", Jval.str "x")] ≠
      cacheKey "manualFlag" [("url", Jval.str "x"), ("value", Jval.bool true)] := by
  exact ⟨by decide, by decide⟩

/-- C5 (amended).  The cache key is determined by the trigger type together
with the direct `JSON.stringify` serialization of the trigger parameters in
their insertion order — for a fixed trigger type, two triggers share a
cache key exactly when their insertion-ordered serializations coincide, not
when they are merely structurally equal. -/
theorem c5_amended_cacheKey_serialization (triggerType : String) (t1 t2 : Trigger) :
    cacheKey triggerType t1 = cacheKey triggerType t2 ↔
      jsonStringify t1 = jsonStringify t2 := by
  unfold cacheKey
  rw [string_append_left_inj]

/-! ### C6: DNS-resolution trigger semantics -/

/-- C6 counterexample.  With `expectIPCIDR` given but empty, the code skips
the containment check (`length > 0` guard) and succeeds, although no
resolved address lies in any listed range. -/
theorem c6_counterexample_empty_cidr_list :
    (testDnsResolve { hostname := "h", expectIPCIDR := some [] }
      (.ok (some ["10.0.0.5"]))).success = true ∧
    (["10.0.0.5"].any (fun a => ([] : List String).any (fun c => isIPInCIDR a c))) = false := by
  exact ⟨by decide, by decide⟩

/-- C6 (amended).  `testDnsResolve` fails on zero resolved addresses; with
a non-empty `expectIPCIDR` and no `exact` mode, success is exactly
"some address lies in some listed range" (OR across ranges); with
`matches = 'exact'` and `expectIPCIDR` given, success is instead exact
string membership, overriding the containment check; an empty given
`expectIPCIDR` list without `exact` is skipped entirely. -/
theorem c6_testDnsResolve_checks (trig : DnsResolveTrigger) (addresses l : List String) :
    (∀ e : String, (testDnsResolve trig (.error e)).success = false) ∧
    (testDnsResolve trig (.ok none)).success = false ∧
    (testDnsResolve trig (.ok (some []))).success = false ∧
    (trig.expectIPCIDR = some l → l ≠ [] → trig.matchesMode ≠ some "exact" → addresses ≠ [] →
      (testDnsResolve trig (.ok (some addresses))).success =
        addresses.any (fun a => l.any (fun c => isIPInCIDR a c))) ∧
    (trig.expectIPCIDR = some l → trig.matchesMode = some "exact" → addresses ≠ [] →
      (testDnsResolve trig (.ok (some addresses))).success =
        addresses.any (fun a => l.contains a)) ∧
    (trig.expectIPCIDR = some [] → trig.matchesMode ≠ some "exact" → addresses ≠ [] →
      (testDnsResolve trig (.ok (some addresses))).success = true) := by
  refine ⟨fun e => rfl, rfl, rfl, ?_, ?_, ?_⟩
  · intro hc hl hm ha
    obtain ⟨a0, arest, rfl⟩ := List.exists_cons_of_ne_nil ha
    obtain ⟨l0, lrest, rfl⟩ := List.exists_cons_of_ne_nil hl
    simp [testDnsResolve, hc, hm, checkIPInCIDRRanges]
  · intro hc hm ha
    obtain ⟨a0, arest, rfl⟩ := List.exists_cons_of_ne_nil ha
    cases l with
    | nil => simp [testDnsResolve, hc, hm]
    | cons l0 lrest => simp [testDnsResolve, hc, hm, checkIPInCIDRRanges]
  · intro hc hm ha
    obtain ⟨a0, arest, rfl⟩ := List.exists_cons_of_ne_nil ha
    simp [testDnsResolve, hc, hm]

/-- Witness for the amended C6: `10.0.0.5` inside `10.0.0.0/24` succeeds
under CIDR containment, while `exact` mode over the same list fails (the
address is not literally a member), showing the override. -/
theorem c6_testDnsResolve_checks_witness :
    (testDnsResolve { hostname := "h", expectIPCIDR := some ["10.0.0.0/24"] }
      (.ok (some ["10.0.0.5"]))).success =
      (["10.0.0.5"].any (fun a => ["10.0.0.0/24"].any (fun c => isIPInCIDR a c))) ∧
    (testDnsResolve { hostname := "h",
                      matchesMode := some "exact",
                      expectIPCIDR := some ["10.0.0.0/24"] }
      (.ok (some ["10.0.0.5"]))).success =
      (["10.0.0.5"].any (fun a => ["10.0.0.0/24"].contains a)) :=
  ⟨(c6_testDnsResolve_checks { hostname := "h", expectIPCIDR := some ["10.0.0.0/24"] }
      ["10.0.0.5"] ["10.0.0.0/24"]).2.2.2.1 rfl (by decide) (by decide) (by decide),
    (c6_testDnsResolve_checks { hostname := "h",
                                matchesMode := some "exact",
                                expectIPCIDR := some ["10.0.0.0/24"] }
      ["10.0.0.5"] ["10.0.0.0/24"]).2.2.2.2.1 rfl rfl (by decide)⟩

/-! ### C7: IP-info trigger semantics -/

/-- C7 counterexample.  With `expectOrg` given and the provider returning
an empty `org` field, the code skips the substring check (falsy `data.org`)
and succeeds, although `"x"` is not a substring of the returned `org`. -/
theorem c7_counterexample_empty_org_field :
    (testIpInfo { expectOrg := some "x" }
      (.ok (true, { org := some "", country := none }))).success = true ∧
    ciIncludes "" "x" = false := by
  exact ⟨by decide, by decide⟩

/-- C7 (amended).  `testIpInfo` fails on a thrown fetch or non-OK response;
on an OK response it succeeds iff each enabled check passes, where the org
check is enabled only when both `expectOrg` and the returned `org` field
are truthy (present and non-empty) — likewise for the country check — and
disabled checks hold vacuously. -/
theorem c7_testIpInfo_conditions (trig : IpInfoTrigger) (d : IpInfoData) :
    (∀ e : String, (testIpInfo trig (.error e)).success = false) ∧
    (testIpInfo trig (.ok (false, d))).success = false ∧
    ((testIpInfo trig (.ok (true, d))).success = true ↔
      ((optTruthy trig.expectOrg = true ∧ optTruthy d.org = true) →
        ciIncludes (d.org.getD "") (trig.expectOrg.getD "") = true) ∧
      ((optTruthy trig.expectCountry = true ∧ optTruthy d.country = true) →
        strToLower (d.country.getD "") = strToLower (trig.expectCountry.getD ""))) := by
  refine ⟨fun e => rfl, rfl, ?_⟩
  cases hEo : optTruthy trig.expectOrg <;> cases hDo : optTruthy d.org <;>
    cases hEc : optTruthy trig.expectCountry <;> cases hDc : optTruthy d.country <;>
    simp [testIpInfo, hEo, hDo, hEc, hDc, Bool.and_eq_true]

/-- Witness for the amended C7: both checks enabled and passing
(case-insensitive substring org match and case-insensitive country
equality). -/
theorem c7_testIpInfo_conditions_witness :
    (testIpInfo { expectOrg := some "google", expectCountry := some "AU" }
      (.ok (true, { org := some "Google LLC", country := some "au" }))).success = true :=
  (c7_testIpInfo_conditions { expectOrg := some "google", expectCountry := some "AU" }
    { org := some "Google LLC", country := some "au" }).2.2.mpr (by decide)

/-! ### C8: CIDR matching is total and mask-based -/

/-- C8.  `isIPInCIDR` is a total Boolean function that fails closed on a
malformed CIDR (wrong segment count around `/`, or a prefix that parses to
`NaN`) and, for well-formed IPv4 inputs, decides containment exactly by
`(ipInt & mask) = (networkInt & mask)` with
`mask = 0xFFFFFFFF << (32 - prefix)` under JavaScript 32-bit semantics;
concretely `10.0.0.5 ∈ 10.0.0.0/24`, `10.0.1.5 ∉ 10.0.0.0/24`, and
`"not-a-cidr"` yields `false` for every address. -/
theorem c8_isIPInCIDR_total_masking :
    (∀ ip cidr : String, (strSplitOn cidr '/').length ≠ 2 → isIPInCIDR ip cidr = false) ∧
    (∀ ip cidr network prefixStr : String, strSplitOn cidr '/' = [network, prefixStr] →
      parseIntJS prefixStr = none → isIPInCIDR ip cidr = false) ∧
    (∀ (ip cidr network prefixStr : String) (p : Int),
      strSplitOn cidr '/' = [network, prefixStr] →
      parseIntJS prefixStr = some p → isIPv4 ip = true → isIPv4 network = true →
      isIPInCIDR ip cidr =
        decide (jsAnd (ipv4ToNumber ip) (jsShl 4294967295 (32 - p)) =
          jsAnd (ipv4ToNumber network) (jsShl 4294967295 (32 - p)))) ∧
    isIPInCIDR "10.0.0.5" "10.0.0.0/24" = true ∧
    isIPInCIDR "10.0.1.5" "10.0.0.0/24" = false ∧
    (∀ ip : String, isIPInCIDR ip "not-a-cidr" = false) := by
  refine ⟨?_, ?_, ?_, by decide, by decide, fun ip => rfl⟩
  · intro ip cidr h
    rcases hs : strSplitOn cidr '/' with _ | ⟨a, _ | ⟨b, _ | ⟨c, rest⟩⟩⟩ <;>
      simp [isIPInCIDR, hs] <;> simp [hs] at h
  · intro ip cidr network prefixStr hs hp
    simp [isIPInCIDR, hs, hp]
  · intro ip cidr network prefixStr p hs hp hip hnet
    simp [isIPInCIDR, hs, hp, hip, hnet, isIPv4InCIDR]

/-- Witness for C8 at concrete malformed and well-formed inputs. -/
theorem c8_isIPInCIDR_total_masking_witness :
    isIPInCIDR "1.2.3.4" "not-a-cidr" = false ∧
    isIPInCIDR "1.2.3.4" "10.0.0.0/xy" = false ∧
    isIPInCIDR "10.0.0.5" "10.0.0.0/24" =
      decide (jsAnd (ipv4ToNumber "10.0.0.5") (jsShl 4294967295 (32 - 24)) =
        jsAnd (ipv4ToNumber "10.0.0.0") (jsShl 4294967295 (32 - 24))) :=
  ⟨c8_isIPInCIDR_total_masking.1 "1.2.3.4" "not-a-cidr" (by decide),
    c8_isIPInCIDR_total_masking.2.1 "1.2.3.4" "10.0.0.0/xy" "10.0.0.0" "xy"
      (by decide) (by decide),
    c8_isIPInCIDR_total_masking.2.2.1 "10.0.0.5" "10.0.0.0/24" "10.0.0.0" "24" 24
      (by decide) (by decide) (by decide) (by decide)⟩

end Switcheroo
